import Mathlib

set_option maxRecDepth 4000

/-!
Verification of the next-intl AST analyzer (`src/analyzers/ast-analyzer.ts`).

The analyzer walks a Babel abstract syntax tree.  Parsing, tree traversal and
lexical-scope lookup are capabilities of the external AST library: the
analyzer only consumes
  - the visitation sequences of `VariableDeclarator` and `CallExpression`
    nodes (depth-first source order), each paired with its lexical scope,
  - `scope.getBinding(name)`, returning a binding descriptor
    (`kind`, `path.isImportSpecifier()`, `path.isVariableDeclarator()`,
    `path.node.init`, `path.scope`, and the grandparent path used by the
    map-iteration pattern check), and
  - the list of `ExportNamedDeclaration` nodes of a parsed module.
The embedding below models exactly those observations.  Source offsets are
not modelled on nodes; the analyzer reads them as `node.start || 0`, so the
embedded records carry the absent-default `0`.
-/

namespace AstAnalyzer

mutual
/-- Babel AST node shapes the analyzer inspects.  `tsWrap` stands for the
type-assertion wrappers (`TSAsExpression`, `TSTypeAssertion`,
`TSNonNullExpression`, `TSSatisfiesExpression`), which are handled uniformly
by unwrap loops.  In `memberExpr`, `propName = some n` models a property node
that is an `Identifier` with `.name = n`; `none` models any non-identifier
property node (whose `.name` attribute is absent).  `otherNode` covers every
node shape for which the analyzer has no rule. -/
inductive Node where
  | stringLit (value : String)
  | templateLit (quasis : List String) (exprs : List Node)
  | arrayExpr (elements : List (Option Node))
  | objectExpr (props : List OProp)
  | ident (name : String)
  | binaryPlus (left : Node) (right : Node)
  | tsWrap (expression : Node)
  | memberExpr (obj : Node) (propName : Option String)
  | callExpr (callee : Node) (args : List Node)
  | awaitExpr (argument : Node)
  | otherNode

/-- Object-literal members.  `objectProp (some k) v` models an
`ObjectProperty` whose key is an `Identifier` named `k`; `objectProp none v`
one with a non-identifier key; `otherProp` any other member (spread, method,
and so on). -/
inductive OProp where
  | objectProp (keyName : Option String) (value : Node)
  | otherProp
end

/-- Babel binding kinds the analyzer distinguishes: it tests
`binding.kind === "module"` and `binding.kind === "param"`; all other kinds
behave alike. -/
inductive BindingKind where
  | module
  | param
  | otherKind
deriving DecidableEq

/-- A scope binding descriptor, the interface the analyzer reads off a Babel
`Binding`:
  - `kind`: the binding kind;
  - `isImportSpecifierP`: whether `binding.path.isImportSpecifier()`;
  - `importedName`, `importSource`: for import specifiers, the imported
    export name and the import declaration source string;
  - `isVariableDeclaratorP`: whether `binding.path.isVariableDeclarator()`;
  - `nodeInit`: `binding.path.node.init` (absent for paths without an
    initializer, such as parameters and import specifiers);
  - `pathScope`: the bindings visible from `binding.path.scope` (Babel
    resolves through the parent chain; the model stores the flattened view);
  - `fnGrandparent`: the node of `binding.path.parentPath.parentPath` when
    present, used by the map-iteration pattern check on parameters. -/
inductive Binding where
  | mk (kind : BindingKind)
       (isImportSpecifierP : Bool)
       (importedName : String)
       (importSource : String)
       (isVariableDeclaratorP : Bool)
       (nodeInit : Option Node)
       (pathScope : List (String × Binding))
       (fnGrandparent : Option Node)

/-- A lexical scope as consumed through `scope.getBinding`: the flattened
name-to-binding view at a program point. -/
abbrev Scope := List (String × Binding)

def Binding.kind : Binding → BindingKind
  | .mk k _ _ _ _ _ _ _ => k

def Binding.isImportSpecifierP : Binding → Bool
  | .mk _ b _ _ _ _ _ _ => b

def Binding.importedName : Binding → String
  | .mk _ _ n _ _ _ _ _ => n

def Binding.importSource : Binding → String
  | .mk _ _ _ s _ _ _ _ => s

def Binding.isVariableDeclaratorP : Binding → Bool
  | .mk _ _ _ _ b _ _ _ => b

def Binding.nodeInit : Binding → Option Node
  | .mk _ _ _ _ _ i _ _ => i

def Binding.pathScope : Binding → Scope
  | .mk _ _ _ _ _ _ s _ => s

def Binding.fnGrandparent : Binding → Option Node
  | .mk _ _ _ _ _ _ _ g => g

/-- The `scope.getBinding(name)` capability. -/
def Scope.getBinding (scope : Scope) (name : String) : Option Binding :=
  (scope.find? (fun p => p.1 == name)).map (fun p => p.2)

/-- One visited `VariableDeclarator` node: `idName` is `node.id.name` when
the id is an `Identifier` (else absent), `init` is `node.init`, `scope` the
path scope, and `line`, `startPos`, `endPos` the `|| 0`-defaulted location
data. -/
structure DeclSite where
  idName : Option String
  init : Option Node
  scope : Scope
  line : Nat
  startPos : Nat
  endPos : Nat

/-- One visited `CallExpression` node together with its lexical scope. -/
structure CallSite where
  callee : Node
  args : List Node
  scope : Scope

/-- An `ExportNamedDeclaration` of a parsed module: either a
`VariableDeclaration` with its declarators (each giving `decl.id.name` when
the id is an `Identifier`, and `decl.init`), or any other export form. -/
inductive ExportNamed where
  | varDecl (declarations : List (Option String × Option Node))
  | nonVarDecl

/-- A parsed file, as the analyzer observes it through the external AST
library: the `VariableDeclarator` and `CallExpression` visitation sequences
(depth-first source order) and the named exports. -/
structure Program where
  declarators : List DeclSite
  calls : List CallSite
  namedExports : List ExportNamed

/-- Source text, abstracted to the outcome of the external parse capability:
either it parses to a `Program` or it does not parse.  (`parseCode` in the
source wraps `@babel/parser` in a try/catch returning `null` on failure.) -/
inductive Code where
  | src (prog : Program)
  | unparsable

/-- `parseCode`: parse source text, or fail producing no tree. -/
def parseCode : Code → Option Program
  | .src p => some p
  | .unparsable => none

/-- The import resolver capability `(modulePath) → sourceText | undefined`.
The source additionally treats an empty returned text as falsy and skips
parsing it; an empty text parses to a program with no exports, which yields
the same (dynamic) outcome, so the model folds that case into the parse. -/
abbrev Importer := String → Option Code

/-- The value component of `ResolvedValue`:
`string | string[] | Record<string,string>[] | null`.  A record is an
ordered string-keyed map (`recordSet` mirrors JavaScript property
assignment: overwrite in place, else append). -/
inductive FoldVal where
  | str (s : String)
  | strList (l : List String)
  | objList (l : List (List (String × String)))
  | nullV
deriving DecidableEq

/-- `ResolvedValue` from the source: the Constant Folder result type. -/
structure ResolvedValue where
  value : FoldVal
  isDynamic : Bool
deriving DecidableEq

/-- The `{ value: null, isDynamic: true }` result. -/
def dynamicValue : ResolvedValue := ⟨FoldVal.nullV, true⟩

/-- The entry unwrap loop of `foldConstant`: strip type-assertion wrappers
until none remain. -/
def unwrapTS : Node → Node
  | .tsWrap e => unwrapTS e
  | n => n

/-- JavaScript object property assignment `obj[k] = v` on an ordered
string-keyed record: overwrite an existing key in place, otherwise append. -/
def recordSet (r : List (String × String)) (k v : String) : List (String × String) :=
  if r.any (fun p => p.1 == k) then
    r.map (fun p => if p.1 == k then (k, v) else p)
  else r ++ [(k, v)]

/-- Record lookup `obj[k]`: the stored value, or absent. -/
def recordGet (r : List (String × String)) (k : String) : Option String :=
  (r.find? (fun p => p.1 == k)).map (fun p => p.2)

/-- Per-element classification datum of the array-literal scan: a hole
(`null` element, skipped), an element folding to a non-dynamic string, a raw
`ObjectExpression` element (with its property keys and folded property
values precomputed), or anything else (which makes the array mixed). -/
inductive ElemInfo where
  | hole
  | strVal (s : String)
  | objElem (props : List (Option String × Option ResolvedValue))
  | otherElem

/-- The tri-state array classification (`"unknown" | "string" | "object"`;
the `"mixed"` state short-circuits into a dynamic result). -/
inductive ArrClass where
  | unknown
  | stringTy
  | objectTy

/-- Build the record for one `ObjectExpression` array element: only
`ObjectProperty` members with an `Identifier` key whose value folds to a
non-dynamic string are kept; complex members are dropped rather than
failing the object (`isSimpleObject` is never set false in the source). -/
def buildRecord (props : List (Option String × Option ResolvedValue)) : List (String × String) :=
  props.foldl (fun obj p =>
    match p.1, p.2 with
    | some k, some r =>
      match r.isDynamic, r.value with
      | false, FoldVal.str s => recordSet obj k s
      | _, _ => obj
    | _, _ => obj) []

/-- The array-literal element scan (source lines 95-160), written as the
pure tri-state reduction it implements with a mutable flag and `break`:
holes are skipped; a string element in the unknown or string state extends
the string run; an `ObjectExpression` element in the unknown or object state
appends its record; any conflict or unclassifiable element makes the whole
array dynamic; an array that never left the unknown state is dynamic.
(The source also has a branch for elements folding to a non-null non-array
object, with an empty body; `foldConstant` never produces such a value, so
that branch is dead and is omitted here.) -/
def classifyArray : List ElemInfo → ArrClass → List String → List (List (String × String)) → ResolvedValue
  | [], cls, strAcc, objAcc =>
    match cls with
    | .stringTy => ⟨FoldVal.strList strAcc, false⟩
    | .objectTy => ⟨FoldVal.objList objAcc, false⟩
    | .unknown => dynamicValue
  | info :: rest, cls, strAcc, objAcc =>
    match info with
    | .hole => classifyArray rest cls strAcc objAcc
    | .strVal s =>
      match cls with
      | .unknown => classifyArray rest .stringTy (strAcc ++ [s]) objAcc
      | .stringTy => classifyArray rest .stringTy (strAcc ++ [s]) objAcc
      | .objectTy => dynamicValue
    | .objElem props =>
      match cls with
      | .unknown => classifyArray rest .objectTy strAcc (objAcc ++ [buildRecord props])
      | .objectTy => classifyArray rest .objectTy strAcc (objAcc ++ [buildRecord props])
      | .stringTy => dynamicValue
    | .otherElem => dynamicValue

/-- Classification datum of one array element (source lines 100-150), for a
given element fold `fold` (the recursive `foldConstant` at `depth + 1`): a
hole is skipped; an element folding to a non-dynamic string is a string
element; otherwise a raw `ObjectExpression` element carries its property
keys and folded property values; anything else makes the array mixed. -/
def elemInfoOf (fold : Node → ResolvedValue) (oel : Option Node) : ElemInfo :=
  match oel with
  | none => ElemInfo.hole
  | some el =>
    let res := fold el
    match res.isDynamic, res.value with
    | false, FoldVal.str s => ElemInfo.strVal s
    | _, _ =>
      match el with
      | Node.objectExpr props =>
        ElemInfo.objElem (props.map (fun p =>
          match p with
          | OProp.objectProp k v => (k, some (fold v))
          | OProp.otherProp => (none, none)))
      | _ => ElemInfo.otherElem

/-- The template-literal joining loop shared by the folder (lines 231-249)
and the namespace resolver (lines 296-310): walk the quasis in order,
interleaving one folded substitution after each quasi while substitutions
remain; fail if a substitution did not fold to a non-dynamic string. -/
def templateJoin : List String → List ResolvedValue → Option (List String)
  | [], _ => some []
  | q :: qrest, [] => (templateJoin qrest []).map (fun l => q :: l)
  | q :: qrest, r :: rrest =>
    match r.isDynamic, r.value with
    | false, FoldVal.str s => (templateJoin qrest rrest).map (fun l => q :: s :: l)
    | _, _ => none

/-- Inner loop of the import-resolution scan (source lines 185-196): walk
the declarators of one exported `VariableDeclaration`; every declarator
whose identifier matches the imported name overwrites `importedValue` with
its folded initializer (`foldInit`, the recursive fold in an empty scope
with no import resolver). -/
def scanDeclarators (foldInit : Option Node → ResolvedValue) (importedName : String) :
    List (Option String × Option Node) → ResolvedValue → ResolvedValue
  | [], acc => acc
  | d :: rest, acc =>
    scanDeclarators foldInit importedName rest
      (if d.1 == some importedName then foldInit d.2 else acc)

/-- Outer loop of the import-resolution scan (the `traverse` over
`ExportNamedDeclaration`, source lines 181-199): `importedValue` starts
dynamic; each named export that is a `VariableDeclaration` has its
declarators scanned in order; the last matching declarator wins. -/
def scanNamedExports (foldInit : Option Node → ResolvedValue) (importedName : String) :
    List ExportNamed → ResolvedValue → ResolvedValue
  | [], acc => acc
  | ExportNamed.varDecl decls :: rest, acc =>
    scanNamedExports foldInit importedName rest (scanDeclarators foldInit importedName decls acc)
  | ExportNamed.nonVarDecl :: rest, acc => scanNamedExports foldInit importedName rest acc

/-- Core of `foldConstant`, on an already-unwrapped node, by recursion on
the remaining depth budget `fuel`.  The source guards `depth > 5` and passes
`depth + 1` to every recursive call, so `fuel = 6 - depth` makes the guard
`fuel = 0` and every recursive call `fuel - 1`; the two formulations agree
on every input.  The branches follow the source priority order: literals,
arrays, identifiers (imports, then local variable declarators), template
literals with substitutions, binary `+` concatenation, and a dynamic default. -/
def foldCore (node : Node) (scope : Scope) (importer : Option Importer) (fuel : Nat) :
    ResolvedValue :=
  match fuel with
  | 0 => dynamicValue
  | f + 1 =>
    match node with
    | .stringLit v => ⟨FoldVal.str v, false⟩
    | .templateLit quasis exprs =>
      if exprs.isEmpty then
        ⟨FoldVal.str (quasis.headD ""), false⟩
      else
        match templateJoin quasis (exprs.map (fun e => foldCore (unwrapTS e) scope importer f)) with
        | some parts => ⟨FoldVal.str (String.join parts), false⟩
        | none => dynamicValue
    | .arrayExpr elements =>
      classifyArray
        (elements.map (elemInfoOf (fun n => foldCore (unwrapTS n) scope importer f)))
        ArrClass.unknown [] []
    | .ident name =>
      match Scope.getBinding scope name with
      | none => dynamicValue
      | some b =>
        match b.kind with
        | BindingKind.module =>
          if b.isImportSpecifierP then
            match importer with
            | some imp =>
              match imp b.importSource with
              | some c =>
                match parseCode c with
                | some subAst =>
                  scanNamedExports
                    (fun oinit =>
                      match oinit with
                      | none => dynamicValue
                      | some v => foldCore (unwrapTS v) [] none f)
                    b.importedName subAst.namedExports dynamicValue
                | none => dynamicValue
              | none => dynamicValue
            | none => dynamicValue
          else dynamicValue
        | _ =>
          if b.isVariableDeclaratorP then
            match b.nodeInit with
            | none => dynamicValue
            | some v => foldCore (unwrapTS v) scope importer f
          else dynamicValue
    | .binaryPlus l r =>
      let lres := foldCore (unwrapTS l) scope importer f
      let rres := foldCore (unwrapTS r) scope importer f
      match lres.isDynamic, lres.value, rres.isDynamic, rres.value with
      | false, FoldVal.str ls, false, FoldVal.str rs => ⟨FoldVal.str (ls ++ rs), false⟩
      | _, _, _, _ => dynamicValue
    | _ => dynamicValue

/-- `foldConstant(node, scope, importer, depth)`: absent node is dynamic;
otherwise strip type-assertion wrappers and run the core fold on the
remaining budget `6 - depth` (see `foldCore`). -/
def foldConstant (node : Option Node) (scope : Scope) (importer : Option Importer)
    (depth : Nat) : ResolvedValue :=
  match node with
  | none => dynamicValue
  | some n => foldCore (unwrapTS n) scope importer (6 - depth)

/-- Result of `resolveNamespaceFromCall`.  `nspace` models the source field
`namespace` (a Lean keyword): the resolved namespace, or `none` for `null`. -/
structure NsResolution where
  nspace : Option String
  isDynamic : Bool
  dynamicPlaceholder : Option String
deriving DecidableEq

/-- `callExpr.arguments` of a call-expression node. -/
def callArguments : Node → List Node
  | .callExpr _ args => args
  | _ => []

/-- Diagnostic placeholder text, tagged by file label and line. -/
def placeholderText (tag fileName : String) (line : Nat) : String :=
  "<" ++ tag ++ ":" ++ fileName ++ ":L" ++ toString line ++ ">"

/-- `resolveNamespaceFromCall`: no first argument is dynamic with a
`no-namespace` placeholder; a first argument folding to a string resolves;
a template literal with substitutions gets the element-by-element retry
(inner folds at depth 0, as in the source); everything else is dynamic with
a `dynamic` placeholder. -/
def resolveNamespaceFromCall (callExpr : Node) (scope : Scope) (importer : Option Importer)
    (fileName : String) (line : Nat) : NsResolution :=
  match (callArguments callExpr).head? with
  | none => ⟨none, true, some (placeholderText "no-namespace" fileName line)⟩
  | some firstArg =>
    let res := foldConstant (some firstArg) scope importer 0
    match res.isDynamic, res.value with
    | false, FoldVal.str s => ⟨some s, false, none⟩
    | _, _ =>
      match firstArg with
      | Node.templateLit quasis exprs =>
        if exprs.length > 0 then
          match templateJoin quasis (exprs.map (fun e => foldConstant (some e) scope importer 0)) with
          | some parts => ⟨some (String.join parts), false, none⟩
          | none => ⟨none, true, some (placeholderText "dynamic" fileName line)⟩
        else ⟨none, true, some (placeholderText "dynamic" fileName line)⟩
      | _ => ⟨none, true, some (placeholderText "dynamic" fileName line)⟩

/-- `UseTranslationsAnalysis` from the source; `nspace` models the field
`namespace` and the three `loc` fields flatten `location`. -/
structure UseTranslationsAnalysis where
  variableName : String
  nspace : Option String
  isDynamic : Bool
  dynamicPlaceholder : Option String
  locStart : Nat
  locEnd : Nat
  locLine : Nat
deriving DecidableEq

/-- `AnalyzedKey` from the source; `nspace` models the field `namespace`,
`endPos` the field `end`. -/
structure AnalyzedKey where
  key : String
  start : Nat
  endPos : Nat
  quoted : Bool
  nspace : Option String
  variableName : String
deriving DecidableEq

/-- Callee name extraction of the accessor-discovery pass (lines 355-360):
a plain identifier gives its name; a member expression whose property is an
`Identifier` gives the property name. -/
def calleeNameForDecl : Node → Option String
  | .ident n => some n
  | .memberExpr _ (some pn) => some pn
  | _ => none

/-- `path.basename`, as used for the diagnostic file label. -/
def pathBasename (p : String) : String :=
  ((p.splitOn "/").getLast?).getD p

/-- The per-declarator handler of `analyzeUseTranslations` (lines 337-388):
keep declarators of a simple identifier whose initializer is a (possibly
awaited) call to `useTranslations` or `getTranslations`, and resolve the
namespace in the declarator's own scope. -/
def analyzeDeclarator (fileName : String) (importer : Option Importer) (d : DeclSite) :
    Option UseTranslationsAnalysis :=
  match d.idName with
  | none => none
  | some variableName =>
    let callExpr :=
      match d.init with
      | some (Node.awaitExpr a) => some a
      | x => x
    match callExpr with
    | some (Node.callExpr callee args) =>
      match calleeNameForDecl callee with
      | some fn =>
        if fn == "useTranslations" || fn == "getTranslations" then
          let r := resolveNamespaceFromCall (Node.callExpr callee args) d.scope importer
                     fileName d.line
          some ⟨variableName, r.nspace, r.isDynamic, r.dynamicPlaceholder,
                d.startPos, d.endPos, d.line⟩
        else none
      | none => none
    | _ => none

/-- `analyzeUseTranslations`: parse, then collect one analysis record per
qualifying variable declarator, in traversal order; unparsable source gives
an empty result. -/
def analyzeUseTranslations (code : Code) (filePath : Option String) (importer : Option Importer) :
    List UseTranslationsAnalysis :=
  match parseCode code with
  | none => []
  | some ast =>
    let fileName := match filePath with
      | some p => pathBasename p
      | none => "unknown"
    ast.declarators.filterMap (analyzeDeclarator fileName importer)

/-- `['rich', 'markup', 'raw'].includes(methodName)`. -/
def isKeyLookupMethod (m : String) : Bool :=
  m == "rich" || m == "markup" || m == "raw"

/-- Callee destructuring of the usage pass (lines 416-428): a plain
identifier callee gives `(variableName, no method)`; a member expression on
an identifier object gives the object name and `callee.property?.name`
(absent when the property is not an identifier); anything else leaves no
variable name and the call is skipped. -/
def calleeVarMethod : Node → Option (String × Option String)
  | .ident n => some (n, none)
  | .memberExpr (.ident objName) pn => some (objName, pn)
  | _ => none

/-- `callExpr.callee?.name || callExpr.callee?.property?.name` (line 443). -/
def calleeFnName : Node → Option String
  | .ident n => some n
  | .memberExpr _ pn => pn
  | _ => none

/-- JavaScript truthiness of the `namespace` variable (`string | undefined`):
falsy when absent or the empty string. -/
def nsTruthy : Option String → Bool
  | none => false
  | some s => s != ""

/-- `varNamespaceMap.has(v)`. -/
def mapHas (m : List (String × String)) (k : String) : Bool :=
  m.any (fun p => p.1 == k)

/-- `varNamespaceMap.get(v)`. -/
def mapGet (m : List (String × String)) (k : String) : Option String :=
  (m.find? (fun p => p.1 == k)).map (fun p => p.2)

/-- The map-iteration pattern check (lines 485-494 and 517-526): the
binding's function grandparent must be a call expression whose callee is a
member expression with an `Identifier` property named `map` on an
`Identifier` object; the result is that object identifier node, to be
constant-folded. -/
def mapIterationSource (b : Binding) : Option Node :=
  match b.fnGrandparent with
  | some (Node.callExpr (Node.memberExpr (Node.ident arrName) (some pn)) _) =>
    if pn == "map" then some (Node.ident arrName) else none
  | _ => none

/-- Scope-based namespace resolution of the usage pass (lines 434-455):
look the variable up in the call-site scope; when its binding initializer is
a (possibly awaited) call to `useTranslations`/`getTranslations`, resolve
that call's namespace in `binding.path.scope` (the scope at the binding's
own declaration); a truthy resolved namespace is kept (the source tests
`if (res.namespace)`, so an empty-string namespace is discarded here). -/
def scopeNamespace (importer : Option Importer) (variableName : String) (scope : Scope) :
    Option String :=
  match Scope.getBinding scope variableName with
  | none => none
  | some b =>
    let callExpr :=
      match b.nodeInit with
      | some (Node.awaitExpr a) => some a
      | x => x
    match callExpr with
    | some (Node.callExpr callee cargs) =>
      match calleeFnName callee with
      | some fn =>
        if fn == "useTranslations" || fn == "getTranslations" then
          let res := resolveNamespaceFromCall (Node.callExpr callee cargs) b.pathScope
                       importer "unknown" 0
          match res.nspace with
          | some ns => if ns != "" then some ns else none
          | none => none
        else none
      | none => none
    | _ => none

/-- The `namespace` variable after the fallback step (lines 458-460):
scope-based resolution first; when it produced nothing, the supplied map is
consulted (its value may be the empty string). -/
def resolveUsageNamespace (varNamespaceMap : List (String × String)) (importer : Option Importer)
    (variableName : String) (scope : Scope) : Option String :=
  match scopeNamespace importer variableName scope with
  | some n => some n
  | none =>
    if mapHas varNamespaceMap variableName then mapGet varNamespaceMap variableName
    else none

/-- String-array expansion of the map-iteration pattern (lines 498-503):
a folded non-dynamic array whose elements are strings (the source tests
`length > 0` and the type of the first element) contributes every element
as a key. -/
def keysFromStringArray (r : ResolvedValue) : List String :=
  match r.isDynamic, r.value with
  | false, FoldVal.strList l => if l.length > 0 then l else []
  | _, _ => []

/-- Object-array expansion of the map-iteration pattern (lines 529-537):
a folded non-dynamic array of records contributes, for each record, its
`propertyName` value when that value is truthy. -/
def keysFromObjectArray (propertyName : String) (r : ResolvedValue) : List String :=
  match r.isDynamic, r.value with
  | false, FoldVal.objList items =>
    if items.length > 0 then
      items.foldl (fun acc it =>
        match recordGet it propertyName with
        | some v => if v != "" then acc ++ [v] else acc
        | none => acc) []
    else []
  | _, _ => []

/-- `keysToEmit` for the first call argument (lines 470-544): a first
argument constant-folding to a string is the single key; an identifier bound
as a parameter under the map-iteration pattern expands a folded homogeneous
string array to one key per element; a `param.prop` member expression under
the same pattern expands a folded object array to one key per object with a
truthy `prop` value; anything else emits nothing. -/
def keysForArg (importer : Option Importer) (scope : Scope) (firstArg : Node) : List String :=
  let valRes := foldConstant (some firstArg) scope importer 0
  match valRes.isDynamic, valRes.value with
  | false, FoldVal.str s => [s]
  | _, _ =>
    match firstArg with
    | Node.ident argName =>
      (match Scope.getBinding scope argName with
       | some b =>
         if b.kind == BindingKind.param then
           match mapIterationSource b with
           | some arrNode => keysFromStringArray (foldConstant (some arrNode) scope importer 0)
           | none => []
         else []
       | none => [])
    | Node.memberExpr obj (some propertyName) =>
      (match obj with
       | Node.ident objectName =>
         (match Scope.getBinding scope objectName with
          | some b =>
            if b.kind == BindingKind.param then
              match mapIterationSource b with
              | some arrNode =>
                keysFromObjectArray propertyName (foldConstant (some arrNode) scope importer 0)
              | none => []
            else []
          | none => [])
       | _ => [])
    | _ => []

/-- Emission of one `AnalyzedKey` (lines 547-557): the key is
namespace-qualified with the hard-coded `.` delimiter when the namespace is
truthy, else bare; offsets are those of `locationNode` (the first argument,
whose offsets the model defaults to 0); `quoted` holds exactly when the raw
first argument is a string or template literal. -/
def mkEmit (ns2 : Option String) (variableName : String) (firstArg : Node) (key : String) :
    AnalyzedKey :=
  ⟨(if nsTruthy ns2 then (ns2.getD "") ++ "." ++ key else key),
   0, 0,
   (match firstArg with
    | Node.stringLit _ => true
    | Node.templateLit _ _ => true
    | _ => false),
   ns2, variableName⟩

/-- The body of the usage handler once a variable name survived the method
filter (lines 430-558): namespace resolution with fallback, the
unrecognized-accessor skip (a falsy namespace together with a variable
absent from the map), then key extraction and emission.  Emission of
`keysToEmit` is a plain `map`: the source's `length > 0` guard around the
emission loop is redundant. -/
def processLookup (varNamespaceMap : List (String × String)) (importer : Option Importer)
    (variableName : String) (args : List Node) (scope : Scope) : List AnalyzedKey :=
  let ns2 := resolveUsageNamespace varNamespaceMap importer variableName scope
  if !(nsTruthy ns2) && !(mapHas varNamespaceMap variableName) then []
  else
    match args.head? with
    | none => []
    | some firstArg =>
      (keysForArg importer scope firstArg).map (mkEmit ns2 variableName firstArg)

/-- The per-call handler of `analyzeTranslationUsages` (lines 411-559):
destructure the callee, apply the `rich`/`markup`/`raw` method filter
(bypassed when no method name was extracted, following the source's
truthiness test), and process the lookup. -/
def analyzeCallSite (varNamespaceMap : List (String × String)) (importer : Option Importer)
    (site : CallSite) : List AnalyzedKey :=
  match calleeVarMethod site.callee with
  | none => []
  | some (variableName, methodName) =>
    if (match methodName with
        | some m => m != "" && !(isKeyLookupMethod m)
        | none => false) then []
    else processLookup varNamespaceMap importer variableName site.args site.scope

/-- `analyzeTranslationUsages`: parse, then concatenate the keys emitted at
each visited call expression, in traversal order; unparsable source gives an
empty result. -/
def analyzeTranslationUsages (code : Code) (varNamespaceMap : List (String × String))
    (importer : Option Importer) : List AnalyzedKey :=
  match parseCode code with
  | none => []
  | some ast =>
    ast.calls.foldr (fun c acc => analyzeCallSite varNamespaceMap importer c ++ acc) []

/-! Scenario fixtures.  The builders below construct the binding
descriptors the external scope library would hand the analyzer for the
program snippets of the verified claims.  Babel scope objects are cyclic
(a binding's `path.scope` contains the binding itself); the finite
fixtures record the acyclic part actually consulted by the analyzer. -/

/-- A `const`/`let` variable-declarator binding with the given initializer,
whose declaration-site scope exposes `pathScope`. -/
def declBinding (init : Node) (pathScope : Scope) : Binding :=
  Binding.mk BindingKind.otherKind false "" "" true (some init) pathScope none

/-- A function-parameter binding whose function node sits under
`grandparent` (the node of `binding.path.parentPath.parentPath`). -/
def paramBindingOf (grandparent : Node) : Binding :=
  Binding.mk BindingKind.param false "" "" false none [] (some grandparent)

/-- A named-import binding (`import { importedName } from importSource`). -/
def importBindingOf (importedName importSource : String) : Binding :=
  Binding.mk BindingKind.module true importedName importSource false none [] none

/-- C1 fixture: `useTranslations('auth')`. -/
def c1UseCall : Node := Node.callExpr (Node.ident "useTranslations") [Node.stringLit "auth"]

/-- C1 fixture: the binding of `t` in
`const t = useTranslations('auth')`. -/
def c1TBinding : Binding := declBinding c1UseCall []

/-- C1 fixture: the program scope of the C1 snippet. -/
def c1Scope : Scope := [("t", c1TBinding)]

/-- C1 fixture: `const t = useTranslations('auth'); t('login.title')` —
one declarator and the two call expressions the traversal visits, in
depth-first source order. -/
def c1Program : Program :=
  ⟨[⟨some "t", some c1UseCall, c1Scope, 1, 0, 0⟩],
   [⟨Node.ident "useTranslations", [Node.stringLit "auth"], c1Scope⟩,
    ⟨Node.ident "t", [Node.stringLit "login.title"], c1Scope⟩],
   []⟩

/-- C2 fixture: the `ITEMS.map(...)` call node (the callback is opaque to
the pattern check, which only inspects the callee). -/
def c2MapCallNode : Node :=
  Node.callExpr (Node.memberExpr (Node.ident "ITEMS") (some "map")) [Node.otherNode]

/-- C2 fixture: the binding of `ITEMS`, a literal array of string
literals. -/
def c2ItemsBinding (elems : List String) : Binding :=
  declBinding (Node.arrayExpr (elems.map (fun s => some (Node.stringLit s)))) []

/-- C2 fixture: the binding of the callback parameter `cat`. -/
def c2CatBinding : Binding := paramBindingOf c2MapCallNode

/-- C2 fixture: the scope inside the `.map` callback. -/
def c2Scope (elems : List String) : Scope :=
  [("cat", c2CatBinding), ("ITEMS", c2ItemsBinding elems)]

/-- C2 fixture: `const ITEMS = [...]; ITEMS.map(cat => t(cat))` — the two
call expressions the traversal visits (`ITEMS.map(...)`, then `t(cat)`). -/
def c2Program (elems : List String) : Program :=
  ⟨[⟨some "ITEMS", some (Node.arrayExpr (elems.map (fun s => some (Node.stringLit s)))),
     [("ITEMS", c2ItemsBinding elems)], 1, 0, 0⟩],
   [⟨Node.memberExpr (Node.ident "ITEMS") (some "map"), [Node.otherNode],
     [("ITEMS", c2ItemsBinding elems)]⟩,
    ⟨Node.ident "t", [Node.ident "cat"], c2Scope elems⟩],
   []⟩

/-- C3 fixture: `useTranslations('')`. -/
def c3UseEmptyCall : Node := Node.callExpr (Node.ident "useTranslations") [Node.stringLit ""]

/-- C3 fixture: the binding of `t` in `const t = useTranslations('')`. -/
def c3TBinding : Binding := declBinding c3UseEmptyCall []

/-- C3 fixture: the program scope of the C3 snippets. -/
def c3Scope : Scope := [("t", c3TBinding)]

/-- C3 fixture: `const t = useTranslations(''); t('x')`. -/
def c3CounterProgram : Program :=
  ⟨[⟨some "t", some c3UseEmptyCall, c3Scope, 1, 0, 0⟩],
   [⟨Node.ident "useTranslations", [Node.stringLit ""], c3Scope⟩,
    ⟨Node.ident "t", [Node.stringLit "x"], c3Scope⟩],
   []⟩

/-- C3 fixture: a bare `t(<key literal>)` with `t` not bound in scope (the
namespace can then only come from the fallback map). -/
def c3FallbackProgram (k : String) : Program :=
  ⟨[], [⟨Node.ident "t", [Node.stringLit k], []⟩], []⟩

/-- C3 fixture: `const t = useTranslations(''); t(<key literal>)`, to be
analyzed with an empty fallback map. -/
def c3SkipProgram (k : String) : Program :=
  ⟨[⟨some "t", some c3UseEmptyCall, c3Scope, 1, 0, 0⟩],
   [⟨Node.ident "useTranslations", [Node.stringLit ""], c3Scope⟩,
    ⟨Node.ident "t", [Node.stringLit k], c3Scope⟩],
   []⟩

/-- C4 fixture: `useTranslations('ns1')`. -/
def c4UseNs1 : Node := Node.callExpr (Node.ident "useTranslations") [Node.stringLit "ns1"]

/-- C4 fixture: `getTranslations('ns2')` (used awaited). -/
def c4GetNs2 : Node := Node.callExpr (Node.ident "getTranslations") [Node.stringLit "ns2"]

/-- C4 fixture: the binding of `t` inside function `A`
(`const t = useTranslations('ns1')`). -/
def c4TABinding : Binding := declBinding c4UseNs1 []

/-- C4 fixture: the binding of `t` inside function `B`
(`const t = await getTranslations('ns2')`). -/
def c4TBBinding : Binding := declBinding (Node.awaitExpr c4GetNs2) []

/-- C4 fixture: the scope inside function `A`. -/
def c4ScopeA : Scope := [("t", c4TABinding)]

/-- C4 fixture: the scope inside function `B`. -/
def c4ScopeB : Scope := [("t", c4TBBinding)]

/-- C4 fixture: two functions, each with its own local `t` bound to a
different namespace, each calling `t(...)`; visitation order is source
order. -/
def c4Program : Program :=
  ⟨[⟨some "t", some c4UseNs1, c4ScopeA, 3, 0, 0⟩,
    ⟨some "t", some (Node.awaitExpr c4GetNs2), c4ScopeB, 7, 0, 0⟩],
   [⟨Node.ident "useTranslations", [Node.stringLit "ns1"], c4ScopeA⟩,
    ⟨Node.ident "t", [Node.stringLit "key1"], c4ScopeA⟩,
    ⟨Node.ident "getTranslations", [Node.stringLit "ns2"], c4ScopeB⟩,
    ⟨Node.ident "t", [Node.stringLit "key2"], c4ScopeB⟩],
   []⟩

/-- C4 fixture: the binding of the shadowed constant `ns` at the
declaration of `t` (`const ns = 'outer'`). -/
def c4OuterNsBinding : Binding := declBinding (Node.stringLit "outer") []

/-- C4 fixture: the binding of the constant `ns` shadowing the outer one at
the call site (`const ns = 'inner'`). -/
def c4InnerNsBinding : Binding := declBinding (Node.stringLit "inner") []

/-- C4 fixture: the binding of `t = useTranslations(ns)`, declared where
`ns` still means `'outer'`. -/
def c4TShadowBinding : Binding :=
  Binding.mk BindingKind.otherKind false "" "" true
    (some (Node.callExpr (Node.ident "useTranslations") [Node.ident "ns"]))
    [("ns", c4OuterNsBinding)] none

/-- C4 fixture: a call `t('k')` made where a different `ns` (bound to
`'inner'`) is in scope than at the declaration of `t`. -/
def c4ShadowProgram : Program :=
  ⟨[], [⟨Node.ident "t", [Node.stringLit "k"],
         [("t", c4TShadowBinding), ("ns", c4InnerNsBinding)]⟩], []⟩

/-- C5 fixture: the scope binding `a` and `b` to string-literal constants. -/
def c5Scope (a b : String) : Scope :=
  [("a", declBinding (Node.stringLit a) []), ("b", declBinding (Node.stringLit b) [])]

/-- C5 fixture: `useTranslations(a + b)`. -/
def c5PlusCall : Node :=
  Node.callExpr (Node.ident "useTranslations") [Node.binaryPlus (Node.ident "a") (Node.ident "b")]

/-- C5 fixture: a `useTranslations` call on the template literal
interpolating `a` then `b` with empty quasis. -/
def c5TemplateCall : Node :=
  Node.callExpr (Node.ident "useTranslations")
    [Node.templateLit ["", "", ""] [Node.ident "a", Node.ident "b"]]

/-- C6 fixture: a scope where `CATS` is a named-import binding. -/
def c6Scope (iname isrc : String) : Scope := [("CATS", importBindingOf iname isrc)]

/-- C6 fixture: a module whose only named export is a variable named
`OTHER` (no export matches the imported name `CATS`). -/
def c6OtherProg : Program :=
  ⟨[], [], [ExportNamed.varDecl [(some "OTHER", some (Node.stringLit "x"))]]⟩

/-- C6 fixture: a module exporting `export const CATS = <initNode>`. -/
def c6ExpProg (initNode : Node) : Program :=
  ⟨[], [], [ExportNamed.varDecl [(some "CATS", some initNode)]]⟩

/-- C7 fixture: a chain of aliased constants
`const v0 = 's'; const v1 = v0; ...; const v6 = v5`. -/
def chainScope : Scope :=
  [("v0", declBinding (Node.stringLit "s") []),
   ("v1", declBinding (Node.ident "v0") []),
   ("v2", declBinding (Node.ident "v1") []),
   ("v3", declBinding (Node.ident "v2") []),
   ("v4", declBinding (Node.ident "v3") []),
   ("v5", declBinding (Node.ident "v4") []),
   ("v6", declBinding (Node.ident "v5") [])]

/-- C7 fixture: a cyclic-looking alias, `v` bound to an initializer that
mentions `v` itself. -/
def selfAliasScope : Scope := [("v", declBinding (Node.ident "v") [])]

/-- C9: the `ResolvedValue` well-formedness predicate of the claim: the
result is dynamic exactly when its value is absent (`null`); since the
`value` field ranges over the three resolved shapes and `null` only, a
non-dynamic result therefore carries exactly one of the three shapes. -/
def dynNullIff (r : ResolvedValue) : Prop :=
  (r.isDynamic = true) ↔ (r.value = FoldVal.nullV)

/-- C10 fixture: `t['raw']('k')` — a call through a member expression whose
property is not a plain identifier. -/
def c10Program : Program :=
  ⟨[], [⟨Node.memberExpr (Node.ident "t") none, [Node.stringLit "k"], []⟩], []⟩

end AstAnalyzer

namespace AstAnalyzer

/-! Helper lemmas. -/

theorem dynNullIff_dynamicValue : dynNullIff dynamicValue := by
  simp [dynNullIff, dynamicValue]

theorem dynNullIff_str (s : String) : dynNullIff ⟨FoldVal.str s, false⟩ := by
  simp [dynNullIff]

theorem classifyArray_dynNullIff :
    ∀ (infos : List ElemInfo) (cls : ArrClass) (sacc : List String)
      (oacc : List (List (String × String))),
      dynNullIff (classifyArray infos cls sacc oacc)
  | [], cls, sacc, oacc => by
    cases cls <;> simp [classifyArray, dynNullIff, dynamicValue]
  | info :: rest, cls, sacc, oacc => by
    cases info with
    | hole => exact classifyArray_dynNullIff rest cls sacc oacc
    | strVal s =>
      cases cls with
      | unknown => exact classifyArray_dynNullIff rest ArrClass.stringTy (sacc ++ [s]) oacc
      | stringTy => exact classifyArray_dynNullIff rest ArrClass.stringTy (sacc ++ [s]) oacc
      | objectTy => exact dynNullIff_dynamicValue
    | objElem props =>
      cases cls with
      | unknown =>
        exact classifyArray_dynNullIff rest ArrClass.objectTy sacc (oacc ++ [buildRecord props])
      | objectTy =>
        exact classifyArray_dynNullIff rest ArrClass.objectTy sacc (oacc ++ [buildRecord props])
      | stringTy => exact dynNullIff_dynamicValue
    | otherElem => exact dynNullIff_dynamicValue

theorem scanDeclarators_dynNullIff (foldInit : Option Node → ResolvedValue) (name : String)
    (h : ∀ o, dynNullIff (foldInit o)) :
    ∀ (decls : List (Option String × Option Node)) (acc : ResolvedValue),
      dynNullIff acc → dynNullIff (scanDeclarators foldInit name decls acc) := by
  intro decls
  induction decls with
  | nil => intro acc ha; exact ha
  | cons d rest ih =>
    intro acc ha
    apply ih
    by_cases hd : (d.1 == some name) = true
    · simp only [hd, if_true]; exact h d.2
    · simp only [hd, if_false]
      exact ha

theorem scanNamedExports_dynNullIff (foldInit : Option Node → ResolvedValue) (name : String)
    (h : ∀ o, dynNullIff (foldInit o)) :
    ∀ (exps : List ExportNamed) (acc : ResolvedValue),
      dynNullIff acc → dynNullIff (scanNamedExports foldInit name exps acc) := by
  intro exps
  induction exps with
  | nil => intro acc ha; exact ha
  | cons ex rest ih =>
    intro acc ha
    cases ex with
    | varDecl decls => exact ih _ (scanDeclarators_dynNullIff foldInit name h decls acc ha)
    | nonVarDecl => exact ih _ ha

theorem foldCore_dynNullIff :
    ∀ (fuel : Nat) (node : Node) (scope : Scope) (imp : Option Importer),
      dynNullIff (foldCore node scope imp fuel) := by
  intro fuel
  induction fuel with
  | zero => intro node scope imp; exact dynNullIff_dynamicValue
  | succ f ih =>
    intro node scope imp
    cases node with
    | stringLit v => exact dynNullIff_str v
    | templateLit quasis exprs =>
      simp only [foldCore]
      split
      · exact dynNullIff_str _
      · split
        · exact dynNullIff_str _
        · exact dynNullIff_dynamicValue
    | arrayExpr elements =>
      simp only [foldCore]
      exact classifyArray_dynNullIff _ _ _ _
    | ident name =>
      simp only [foldCore]
      split
      · exact dynNullIff_dynamicValue
      · split
        · split
          · split
            · split
              · split
                · apply scanNamedExports_dynNullIff _ _ _ _ _ dynNullIff_dynamicValue
                  intro o
                  cases o with
                  | none => exact dynNullIff_dynamicValue
                  | some v => exact ih _ _ _
                · exact dynNullIff_dynamicValue
              · exact dynNullIff_dynamicValue
            · exact dynNullIff_dynamicValue
          · exact dynNullIff_dynamicValue
        · split
          · split
            · exact dynNullIff_dynamicValue
            · exact ih _ _ _
          · exact dynNullIff_dynamicValue
    | binaryPlus l r =>
      simp only [foldCore]
      split
      · exact dynNullIff_str _
      · exact dynNullIff_dynamicValue
    | objectExpr props => exact dynNullIff_dynamicValue
    | tsWrap e => exact dynNullIff_dynamicValue
    | memberExpr obj pn => exact dynNullIff_dynamicValue
    | callExpr callee args => exact dynNullIff_dynamicValue
    | awaitExpr a => exact dynNullIff_dynamicValue
    | otherNode => exact dynNullIff_dynamicValue

theorem map_elemInfoOf_strings (fold : Node → ResolvedValue)
    (h : ∀ s, fold (Node.stringLit s) = ⟨FoldVal.str s, false⟩) :
    ∀ elems : List String,
      (elems.map (fun s => some (Node.stringLit s))).map (elemInfoOf fold)
        = elems.map ElemInfo.strVal
  | [] => rfl
  | e :: rest => by
    have hh : elemInfoOf fold (some (Node.stringLit e)) = ElemInfo.strVal e := by
      simp [elemInfoOf, h e]
    simp only [List.map_cons]
    rw [hh, map_elemInfoOf_strings fold h rest]

theorem classifyArray_strings :
    ∀ (l acc : List String) (oacc : List (List (String × String))),
      classifyArray (l.map ElemInfo.strVal) ArrClass.stringTy acc oacc
        = ⟨FoldVal.strList (acc ++ l), false⟩
  | [], acc, oacc => by simp [classifyArray]
  | s :: rest, acc, oacc => by
    simp only [List.map_cons]
    show classifyArray (rest.map ElemInfo.strVal) ArrClass.stringTy (acc ++ [s]) oacc = _
    rw [classifyArray_strings rest (acc ++ [s]) oacc]
    simp

theorem foldCore_string_array (elems : List String) (scope : Scope) (imp : Option Importer)
    (f : Nat) :
    foldCore (Node.arrayExpr (elems.map (fun s => some (Node.stringLit s)))) scope imp (f + 2)
      = if elems.isEmpty then dynamicValue else ⟨FoldVal.strList elems, false⟩ := by
  show classifyArray
      ((elems.map (fun s => some (Node.stringLit s))).map
        (elemInfoOf (fun n => foldCore (unwrapTS n) scope imp (f + 1))))
      ArrClass.unknown [] [] = _
  rw [map_elemInfoOf_strings (fun n => foldCore (unwrapTS n) scope imp (f + 1))
      (fun s => rfl) elems]
  cases elems with
  | nil => simp [classifyArray]
  | cons e rest =>
    show classifyArray (rest.map ElemInfo.strVal) ArrClass.stringTy ([] ++ [e]) [] = _
    rw [classifyArray_strings rest ([] ++ [e]) []]
    simp

theorem processLookup_has (m : List (String × String)) (imp : Option Importer)
    (v : String) (args : List Node) (scope : Scope) (hm : mapHas m v = true) :
    processLookup m imp v args scope
      = match args.head? with
        | none => []
        | some firstArg =>
          (keysForArg imp scope firstArg).map
            (mkEmit (resolveUsageNamespace m imp v scope) v firstArg) := by
  unfold processLookup
  rw [hm]
  simp

/-! Claim theorems. -/

/-- C1: for a source file containing
`const t = useTranslations('auth'); t('login.title')`, usage discovery
(delimiter `.`) returns exactly one `AnalyzedKey`, whose key is
`auth.login.title` and whose `quoted` field is `true`. -/
theorem c1_single_quoted_key :
    analyzeTranslationUsages (Code.src c1Program) [] none
      = [⟨"auth.login.title", 0, 0, true, some "auth", "t"⟩] := by decide

/-- C3 counterexample: in `const t = useTranslations(''); t('x')` the
variable's namespace resolves, scope-based, to the empty string (second
conjunct), but scope resolution discards the empty string (first conjunct),
so with a fallback entry `t ↦ common` the emitted key is `common.x` — not
the bare local key `x` the claim promises for every call whose namespace
resolves to the empty string via scope-based resolution. -/
theorem c3_counterexample :
    scopeNamespace none "t" c3Scope = none
    ∧ (resolveNamespaceFromCall c3UseEmptyCall [] none "unknown" 0).nspace = some ""
    ∧ analyzeTranslationUsages (Code.src c3CounterProgram) [("t", "common")] none
        = [⟨"common.x", 0, 0, true, some "common", "t"⟩]
    ∧ ("common.x" : String) ≠ "x" := by decide

/-- C3 amended: a namespace equal to the empty string coming from the
fallback map is valid and yields the bare local key with no delimiter
(first conjunct); a scope-based resolution to the empty string is treated
as a resolution failure, so with the variable absent from the fallback map
the call is skipped entirely (second conjunct). -/
theorem c3_empty_namespace_amended (k : String) :
    analyzeTranslationUsages (Code.src (c3FallbackProgram k)) [("t", "")] none
      = [⟨k, 0, 0, true, some "", "t"⟩]
    ∧ analyzeTranslationUsages (Code.src (c3SkipProgram k)) [] none = [] :=
  ⟨rfl, rfl⟩

/-- C4: the namespace of a key-lookup call is resolved from the binding's
own initializer in the scope of the binding's declaration: two functions
with local `t` bound to `useTranslations('ns1')` and
`await getTranslations('ns2')` yield `ns1.key1` and `ns2.key2` even though
the fallback map says `t ↦ ns2` (first conjunct); and with
`const t = useTranslations(ns)` declared where `ns = 'outer'`, a call
`t('k')` from a scope where a shadowing `ns = 'inner'` is visible still
yields `outer.k`, using the declaration-site scope, not the call-site
scope (second conjunct). -/
theorem c4_binding_scope_resolution :
    analyzeTranslationUsages (Code.src c4Program) [("t", "ns2")] none
      = [⟨"ns1.key1", 0, 0, true, some "ns1", "t"⟩,
         ⟨"ns2.key2", 0, 0, true, some "ns2", "t"⟩]
    ∧ analyzeTranslationUsages (Code.src c4ShadowProgram) [("t", "fallback")] none
      = [⟨"outer.k", 0, 0, true, some "outer", "t"⟩] := by decide

/-- C5: for all string constants `a`, `b` bound to variables, a
namespace-accessor call on their binary `+` concatenation and one on their
template-literal interpolation both resolve to the literal concatenation
of the two values, with `isDynamic = false`. -/
theorem c5_concat_namespace (a b : String) :
    resolveNamespaceFromCall c5PlusCall (c5Scope a b) none "file.ts" 1
      = ⟨some (a ++ b), false, none⟩
    ∧ resolveNamespaceFromCall c5TemplateCall (c5Scope a b) none "file.ts" 1
      = ⟨some (a ++ b), false, none⟩ := by
  constructor
  · rfl
  · have hj : String.join ["", a, "", b, ""] = a ++ b := by simp [String.join]
    calc resolveNamespaceFromCall c5TemplateCall (c5Scope a b) none "file.ts" 1
        = ⟨some (String.join ["", a, "", b, ""]), false, none⟩ := rfl
      _ = ⟨some (a ++ b), false, none⟩ := by rw [hj]

/-- C2: a key-lookup call `t(cat)` inside `ITEMS.map(cat => ...)`, with
`ITEMS` a literal array of N string-literal elements and `t ↦ ns` in the
fallback map (ns nonempty), emits exactly N AnalyzedKeys, one per array
element in array order, each equal to `ns + "." + element`. -/
theorem c2_map_iteration_expansion (elems : List String) (ns : String) (h : ns ≠ "") :
    analyzeTranslationUsages (Code.src (c2Program elems)) [("t", ns)] none
      = elems.map (fun e => ⟨ns ++ "." ++ e, 0, 0, false, some ns, "t"⟩) := by
  have hb : (ns != "") = true := by simpa using h
  have harr : foldConstant (some (Node.ident "ITEMS")) (c2Scope elems) none 0
      = if elems.isEmpty then dynamicValue else ⟨FoldVal.strList elems, false⟩ := by
    show foldCore (Node.arrayExpr (elems.map (fun s => some (Node.stringLit s))))
        (c2Scope elems) none 5 = _
    exact foldCore_string_array elems (c2Scope elems) none 3
  have hkeys : keysForArg none (c2Scope elems) (Node.ident "cat") = elems := by
    show keysFromStringArray (foldConstant (some (Node.ident "ITEMS")) (c2Scope elems) none 0)
        = elems
    rw [harr]
    cases elems with
    | nil => rfl
    | cons e rest => simp [keysFromStringArray]
  have hstep : analyzeTranslationUsages (Code.src (c2Program elems)) [("t", ns)] none
      = processLookup [("t", ns)] none "t" [Node.ident "cat"] (c2Scope elems) ++ [] := rfl
  rw [hstep, List.append_nil,
    processLookup_has [("t", ns)] none "t" [Node.ident "cat"] (c2Scope elems) rfl]
  show (keysForArg none (c2Scope elems) (Node.ident "cat")).map
      (mkEmit (resolveUsageNamespace [("t", ns)] none "t" (c2Scope elems)) "t"
        (Node.ident "cat"))
      = _
  rw [hkeys]
  have hns : resolveUsageNamespace [("t", ns)] none "t" (c2Scope elems) = some ns := rfl
  apply List.map_congr_left
  intro e _
  simp [hns, mkEmit, nsTruthy, hb]

/-- C2 witness: the expansion theorem at `ITEMS = ['electronics','books']`
and `t ↦ common`. -/
theorem c2_map_iteration_expansion_witness :
    ("common" : String) ≠ ""
    ∧ analyzeTranslationUsages (Code.src (c2Program ["electronics", "books"]))
        [("t", "common")] none
      = [⟨"common.electronics", 0, 0, false, some "common", "t"⟩,
         ⟨"common.books", 0, 0, false, some "common", "t"⟩] := by
  refine ⟨by decide, ?_⟩
  have hx := c2_map_iteration_expansion ["electronics", "books"] "common" (by decide)
  simpa using hx

/-- C6: folding an identifier bound to a named import is dynamic when the
resolver is absent, when the module text is missing, when the text fails to
parse and when no named export matches; and a matching export's declarator
initializer is folded in an empty scope with no import resolver at
depth + 1 — strictly one level deep, so an initializer that is itself an
identifier (for example one bound by the module's own imports) is dynamic. -/
theorem c6_import_resolution (iname isrc : String) (initNode : Node) (yname : String) :
    foldConstant (some (Node.ident "CATS")) (c6Scope iname isrc) none 0 = dynamicValue
    ∧ foldConstant (some (Node.ident "CATS")) (c6Scope iname isrc) (some (fun _ => none)) 0
        = dynamicValue
    ∧ foldConstant (some (Node.ident "CATS")) (c6Scope iname isrc)
        (some (fun _ => some Code.unparsable)) 0 = dynamicValue
    ∧ foldConstant (some (Node.ident "CATS")) (c6Scope "CATS" "./c")
        (some (fun _ => some (Code.src c6OtherProg))) 0 = dynamicValue
    ∧ foldConstant (some (Node.ident "CATS")) (c6Scope "CATS" "./c")
        (some (fun _ => some (Code.src (c6ExpProg initNode)))) 0
        = foldConstant (some initNode) [] none 1
    ∧ foldConstant (some (Node.ident yname)) [] none 1 = dynamicValue :=
  ⟨rfl, rfl, rfl, rfl, rfl, rfl⟩

/-- C7: the fold is total (it is a plain recursive definition) and the
depth guard makes it dynamic immediately once `depth > 5`, for every node,
scope and resolver (first conjunct); a chain of seven aliased constants
exceeds the bound and resolves to dynamic while a chain of five still
resolves (middle conjuncts); and a cyclic-looking self-alias resolves to
dynamic at every remaining budget rather than looping (last conjunct). -/
theorem c7_depth_guard_termination :
    (∀ (node : Option Node) (scope : Scope) (imp : Option Importer) (depth : Nat),
      depth > 5 → foldConstant node scope imp depth = dynamicValue)
    ∧ foldConstant (some (Node.ident "v6")) chainScope none 0 = dynamicValue
    ∧ foldConstant (some (Node.ident "v4")) chainScope none 0 = ⟨FoldVal.str "s", false⟩
    ∧ (∀ fuel : Nat, foldCore (Node.ident "v") selfAliasScope none fuel = dynamicValue) := by
  refine ⟨?_, by decide, by decide, ?_⟩
  · intro node scope imp depth h
    have h0 : 6 - depth = 0 := by omega
    cases node with
    | none => rfl
    | some n =>
      show foldCore (unwrapTS n) scope imp (6 - depth) = dynamicValue
      rw [h0]
      exact rfl
  · intro fuel
    induction fuel with
    | zero => rfl
    | succ f ih =>
      calc foldCore (Node.ident "v") selfAliasScope none (f + 1)
          = foldCore (Node.ident "v") selfAliasScope none f := rfl
        _ = dynamicValue := ih

/-- C7 witness: the depth-guard conjunct applied at depth 6 on a concrete
node. -/
theorem c7_depth_guard_termination_witness :
    (6 : Nat) > 5 ∧ foldConstant (some Node.otherNode) [] none 6 = dynamicValue :=
  ⟨by decide, c7_depth_guard_termination.1 (some Node.otherNode) [] none 6 (by decide)⟩

/-- C8: on source text that fails to parse, both discovery passes return
the empty list (and, being total functions, propagate no exception). -/
theorem c8_unparsable_empty :
    (∀ (fp : Option String) (imp : Option Importer),
      analyzeUseTranslations Code.unparsable fp imp = [])
    ∧ (∀ (m : List (String × String)) (imp : Option Importer),
      analyzeTranslationUsages Code.unparsable m imp = []) :=
  ⟨fun _ _ => rfl, fun _ _ => rfl⟩

/-- C9: for every input, the Constant Folder's result is dynamic exactly
when its value is absent; as the value field ranges over exactly a string,
a string array, an array of string-keyed records, or `null`, a non-dynamic
result carries exactly one of the three resolved shapes, and a dynamic
result carries none. -/
theorem c9_resolved_value_invariant (node : Option Node) (scope : Scope)
    (imp : Option Importer) (depth : Nat) :
    ((foldConstant node scope imp depth).isDynamic = true)
      ↔ ((foldConstant node scope imp depth).value = FoldVal.nullV) := by
  cases node with
  | none => simp [foldConstant, dynamicValue]
  | some n => exact foldCore_dynNullIff (6 - depth) (unwrapTS n) scope imp

/-- C10: a call through a member expression on an identifier whose property
is not a plain identifier (for example `t['raw']('k')`) extracts no method
name, bypasses the `rich`/`markup`/`raw` filter, and is processed exactly
as an ordinary key lookup on the object variable (first conjunct); in
particular `t['raw']('k')` with `t ↦ ns` emits the ordinary key `ns.k`
(second conjunct). -/
theorem c10_computed_member_lookup :
    (∀ (objName : String) (args : List Node) (scope : Scope)
        (m : List (String × String)) (imp : Option Importer),
        analyzeCallSite m imp ⟨Node.memberExpr (Node.ident objName) none, args, scope⟩
          = analyzeCallSite m imp ⟨Node.ident objName, args, scope⟩)
    ∧ analyzeTranslationUsages (Code.src c10Program) [("t", "ns")] none
        = [⟨"ns.k", 0, 0, true, some "ns", "t"⟩] :=
  ⟨fun _ _ _ _ _ => rfl, by decide⟩

end AstAnalyzer
